import Mathlib

/-!
Verification of the cstable read path (CSTableReader.cc): format-version
dispatch, per-column decoder construction, name/id indices and the query
operations of the table reader. The C++ code is embedded shallowly:
pointers into the memory-mapped region are represented by their byte
offset, `RAISEF` by an `Except.error` carrying the structured error
payload, and the `HashMap` members (aliases of `std::unordered_map`,
declared in headers outside the sources at hand) by association lists
whose `emplace` inserts only when the key is absent, matching
`std::unordered_map::emplace`.
-/

namespace CStable

/-- Physical storage encoding tags of a column (`ColumnEncoding` in the C++
sources). The enumeration's declaration lives in a header outside the given
sources; the seven tags dispatched by `openColumnV1` are modelled as named
constructors and any other numeric tag as `otherEncoding`. -/
inductive ColumnEncoding where
  | BOOLEAN_BITPACKED
  | UINT32_BITPACKED
  | UINT32_PLAIN
  | UINT64_PLAIN
  | UINT64_LEB128
  | FLOAT_IEEE754
  | STRING_PLAIN
  | otherEncoding (tag : Nat)
deriving DecidableEq

/-- Modelled from the spec: the numeric value of a storage-encoding tag, as
produced by the C++ cast `(uint32_t) c.storage_type`. The concrete numbering
of the named tags comes from the header that is not among the given sources;
an out-of-enumeration tag casts to its own numeric value. -/
def ColumnEncoding.toNat : ColumnEncoding → Nat
  | .BOOLEAN_BITPACKED => 1
  | .UINT32_BITPACKED => 2
  | .UINT32_PLAIN => 3
  | .UINT64_PLAIN => 4
  | .UINT64_LEB128 => 5
  | .FLOAT_IEEE754 => 6
  | .STRING_PLAIN => 7
  | .otherEncoding tag => tag

/-- Logical value type of a column (`ColumnType` in the C++ sources), again
with an `otherType` constructor for numeric tags outside the enumeration
declared in the missing header. -/
inductive ColumnType where
  | SUBRECORD
  | BOOLEAN
  | UNSIGNED_INT
  | SIGNED_INT
  | STRING
  | FLOAT
  | DATETIME
  | otherType (tag : Nat)
deriving DecidableEq

/-- Modelled from the spec: numeric value of a logical-type tag under the
C++ cast `(uint32_t) logical_type`. -/
def ColumnType.toNat : ColumnType → Nat
  | .SUBRECORD => 0
  | .BOOLEAN => 1
  | .UNSIGNED_INT => 2
  | .SIGNED_INT => 3
  | .STRING => 4
  | .FLOAT => 5
  | .DATETIME => 6
  | .otherType tag => tag

/-- Per-column metadata record parsed from the file header. -/
structure ColumnConfig where
  column_id : Nat
  column_name : String
  storage_type : ColumnEncoding
  logical_type : ColumnType
  rlevel_max : Nat
  dlevel_max : Nat
  body_offset : Nat
  body_size : Nat
deriving DecidableEq

/-- Binary format version tag read from the file prologue. -/
inductive BinaryFormatVersion where
  | v0_1_0
  | v0_2_0
deriving DecidableEq

/-- Structured payload of the errors the reader raises: `RAISEF
(kRuntimeError, "unsupported column type: $0", tag)`, `RAISEF
(kNotFoundError, "column not found: $0", name)` and the failed
`RCHECK (cond, msg)`. -/
inductive Err where
  | unsupportedColumnType (tag : Nat)
  | columnNotFound (column_name : String)
  | checkFailed (msg : String)
deriving DecidableEq

/-- Concrete v1 column decoder produced by `openColumnV1`, one constructor
per concrete class, each carrying the `(rlevel_max, dlevel_max, data
pointer, data size)` arguments it was constructed with; the data pointer
`mmap->structAt<void>(c.body_offset)` is represented by the byte offset
`c.body_offset` into the mapped region. -/
inductive V1ColumnReader where
  | booleanColumnReader (rmax dmax cdata csize : Nat)
  | bitPackedIntColumnReader (rmax dmax cdata csize : Nat)
  | uint32ColumnReader (rmax dmax cdata csize : Nat)
  | uint64ColumnReader (rmax dmax cdata csize : Nat)
  | leb128ColumnReader (rmax dmax cdata csize : Nat)
  | doubleColumnReader (rmax dmax cdata csize : Nat)
  | stringColumnReader (rmax dmax cdata csize : Nat)
deriving DecidableEq

/-- Embedding of the static function `openColumnV1`: exhaustive switch on
`storage_type` constructing one concrete decoder from `(rlevel_max,
dlevel_max, data, size)`, with the default arm raising the
unsupported-column-type error carrying the numeric tag. -/
def openColumnV1 (c : ColumnConfig) : Except Err V1ColumnReader :=
  let csize := c.body_size
  let cdata := c.body_offset
  let rmax := c.rlevel_max
  let dmax := c.dlevel_max
  match c.storage_type with
  | .BOOLEAN_BITPACKED => .ok (.booleanColumnReader rmax dmax cdata csize)
  | .UINT32_BITPACKED => .ok (.bitPackedIntColumnReader rmax dmax cdata csize)
  | .UINT32_PLAIN => .ok (.uint32ColumnReader rmax dmax cdata csize)
  | .UINT64_PLAIN => .ok (.uint64ColumnReader rmax dmax cdata csize)
  | .UINT64_LEB128 => .ok (.leb128ColumnReader rmax dmax cdata csize)
  | .FLOAT_IEEE754 => .ok (.doubleColumnReader rmax dmax cdata csize)
  | .STRING_PLAIN => .ok (.stringColumnReader rmax dmax cdata csize)
  | .otherEncoding tag => .error (.unsupportedColumnType tag)

/-- Page manager handle of the v2 layout, constructed as
`new PageManager(file.fd(), 0, {})`. -/
structure PageManager where
  fd : Int
  offset : Nat
deriving DecidableEq

/-- Level page-stream reader, constructed as `new UInt64PageReader(page_mgr)`. -/
structure UInt64PageReader where
  page_mgr : PageManager
deriving DecidableEq

/-- Concrete v2 column decoder (`UnsignedIntColumnReader`), carrying the
column config, the two optional level page readers (`ScopedPtr`, null when
never assigned) and the page manager it was constructed with. -/
structure UnsignedIntColumnReader where
  config : ColumnConfig
  rlevel_reader : Option UInt64PageReader
  dlevel_reader : Option UInt64PageReader
  page_mgr : PageManager
deriving DecidableEq

/-- Embedding of the static function `openColumnV2`: the `rlevel_reader`
`ScopedPtr` is assigned a `UInt64PageReader` exactly when `rlevel_max > 0`;
the `dlevel_reader` `ScopedPtr` is declared but never assigned in the
function body, so it stays null on every path; the switch on `logical_type`
constructs an `UnsignedIntColumnReader` for `UNSIGNED_INT` and otherwise
raises the unsupported-column-type error whose formatted tag is
`(uint32_t) c.storage_type`. -/
def openColumnV2 (c : ColumnConfig) (page_mgr : PageManager) :
    Except Err UnsignedIntColumnReader :=
  let rlevel_reader : Option UInt64PageReader :=
    if c.rlevel_max > 0 then some { page_mgr := page_mgr } else none
  let dlevel_reader : Option UInt64PageReader := none
  match c.logical_type with
  | .UNSIGNED_INT =>
      .ok { config := c, rlevel_reader := rlevel_reader,
            dlevel_reader := dlevel_reader, page_mgr := page_mgr }
  | _ => .error (.unsupportedColumnType c.storage_type.toNat)

/-- Decoder payload of a unified `ColumnReader`: either a v1 concrete
decoder or the v2 `UnsignedIntColumnReader`. -/
inductive ColumnReaderImpl where
  | v1 (r : V1ColumnReader)
  | v2 (r : UnsignedIntColumnReader)
deriving DecidableEq

/-- Unified column decoder handle stored by the table reader. Alongside the
concrete decoder it records the `ColumnConfig` it was constructed from, so
that the virtual accessors `encoding()` and `type()` (implemented by the
concrete decoder classes, whose sources are not at hand) can be modelled. -/
structure ColumnReader where
  config : ColumnConfig
  impl : ColumnReaderImpl
deriving DecidableEq

/-- Modelled from the spec: the virtual accessor `encoding()` of a column
decoder, implemented by the concrete decoder classes outside the given
sources; per the spec it always equals the `storage_type` recorded in the
originating `ColumnConfig`. -/
def ColumnReader.encoding (r : ColumnReader) : ColumnEncoding :=
  r.config.storage_type

/-- Modelled from the spec: the virtual accessor `type()` of a column
decoder; per the spec it always equals the `logical_type` recorded in the
originating `ColumnConfig`. -/
def ColumnReader.type (r : ColumnReader) : ColumnType :=
  r.config.logical_type

/-- Lookup in the association-list model of the reader's `HashMap` members:
the first binding of the key, if any. -/
def hmFind {α β : Type} [DecidableEq α] : List (α × β) → α → Option β
  | [], _ => none
  | p :: rest, k => if p.1 = k then some p.2 else hmFind rest k

/-- Model of `HashMap::emplace`, which follows `std::unordered_map::emplace`:
the binding is inserted only when the key is not yet present; an existing
binding is never overwritten. -/
def hmEmplace {α β : Type} [DecidableEq α] (m : List (α × β)) (k : α) (v : β) :
    List (α × β) :=
  if (hmFind m k).isSome then m else m ++ [(k, v)]

/-- Embedding of the index-building loop of the `CSTableReader` constructor:
walking the column configs in order, each reader is emplaced in the id index
only when `column_id > 0` and in the name index unconditionally. -/
def buildIndexes :
    List (ColumnConfig × ColumnReader) →
    List (Nat × ColumnReader) → List (String × ColumnReader) →
    List (Nat × ColumnReader) × List (String × ColumnReader)
  | [], by_id, by_name => (by_id, by_name)
  | (c, r) :: rest, by_id, by_name =>
      buildIndexes rest
        (if c.column_id > 0 then hmEmplace by_id c.column_id r else by_id)
        (hmEmplace by_name c.column_name r)

/-- State of a constructed `CSTableReader`, with the member names of the C++
class. The `fd_` member is the raw descriptor the reader owns (`-1` for the
v1 path). -/
structure CSTableReader where
  version_ : BinaryFormatVersion
  columns_ : List ColumnConfig
  num_rows_ : Nat
  fd_ : Int
  column_readers_by_id_ : List (Nat × ColumnReader)
  column_readers_by_name_ : List (String × ColumnReader)
deriving DecidableEq

/-- Embedding of the `CSTableReader` constructor: `RCHECK` raises unless
the reader list and the config list have equal length, then the loop
populates both indices. -/
def mkCSTableReader (version : BinaryFormatVersion)
    (columns : List ColumnConfig) (column_readers : List ColumnReader)
    (num_rows : Nat) (fd : Int) : Except Err CSTableReader :=
  if column_readers.length = columns.length then
    let idx := buildIndexes (columns.zip column_readers) [] []
    .ok { version_ := version, columns_ := columns, num_rows_ := num_rows,
          fd_ := fd, column_readers_by_id_ := idx.1,
          column_readers_by_name_ := idx.2 }
  else
    .error (.checkFailed "illegal column list")

namespace CSTableReader

/-- Embedding of `CSTableReader::getColumnReader`: lookup in the name index,
raising the not-found error when absent. The method is embedded as a state
transformer (result together with the post-call reader state) so that
absence of mutation is a provable statement rather than a modelling
assumption. -/
def getColumnReader (st : CSTableReader) (column_name : String) :
    Except Err ColumnReader × CSTableReader :=
  match hmFind st.column_readers_by_name_ column_name with
  | none => (.error (.columnNotFound column_name), st)
  | some col => (.ok col, st)

/-- Embedding of `CSTableReader::getColumnEncoding`: projection through
`getColumnReader`. -/
def getColumnEncoding (st : CSTableReader) (column_name : String) :
    Except Err ColumnEncoding × CSTableReader :=
  match getColumnReader st column_name with
  | (.error e, st2) => (.error e, st2)
  | (.ok col, st2) => (.ok col.encoding, st2)

/-- Embedding of `CSTableReader::getColumnType`: projection through
`getColumnReader`. -/
def getColumnType (st : CSTableReader) (column_name : String) :
    Except Err ColumnType × CSTableReader :=
  match getColumnReader st column_name with
  | (.error e, st2) => (.error e, st2)
  | (.ok col, st2) => (.ok col.type, st2)

/-- Embedding of `CSTableReader::columns`: returns the stored column list. -/
def columns (st : CSTableReader) : List ColumnConfig × CSTableReader :=
  (st.columns_, st)

/-- Embedding of `CSTableReader::hasColumn`: non-failing existence check on
the name index (the return type is a plain `Bool`, so by construction the
operation cannot raise). -/
def hasColumn (st : CSTableReader) (column_name : String) :
    Bool × CSTableReader :=
  ((hmFind st.column_readers_by_name_ column_name).isSome, st)

/-- Embedding of `CSTableReader::numRecords`: returns the stored row count. -/
def numRecords (st : CSTableReader) : Nat × CSTableReader :=
  (st.num_rows_, st)

end CSTableReader

/-- Embedding of the destructor `~CSTableReader`: the descriptor that is
passed to `close`, when any — `close(fd_)` runs exactly when `fd_ > 0`. -/
def destructorClosesFd (st : CSTableReader) : Option Int :=
  if st.fd_ > 0 then some st.fd_ else none

/-- File header of the v1 layout: the column table and the legacy row
count. -/
structure FileHeader where
  columns : List ColumnConfig
  num_rows : Nat
deriving DecidableEq

/-- Metadata block of the v2 layout; only the row count is consumed by the
reader construction path. -/
structure MetaBlock where
  num_rows : Nat
deriving DecidableEq

/-- Embedding of the v1 per-column construction loop of `openFile`: each
config is opened through `openColumnV1`, errors propagating, and the
resulting decoders are collected in file order. -/
def openColumnsV1 : List ColumnConfig → Except Err (List ColumnReader)
  | [] => .ok []
  | c :: rest =>
    match openColumnV1 c with
    | .error e => .error e
    | .ok r =>
      match openColumnsV1 rest with
      | .error e => .error e
      | .ok rs => .ok ({ config := c, impl := .v1 r } :: rs)

/-- Embedding of the v2 per-column construction loop of `openFile`, opening
each config through `openColumnV2` against the shared page manager. -/
def openColumnsV2 (page_mgr : PageManager) :
    List ColumnConfig → Except Err (List ColumnReader)
  | [] => .ok []
  | c :: rest =>
    match openColumnV2 c page_mgr with
    | .error e => .error e
    | .ok r =>
      match openColumnsV2 page_mgr rest with
      | .error e => .error e
      | .ok rs => .ok ({ config := c, impl := .v2 r } :: rs)

/-- Embedding of `CSTableReader::openFile` after header parsing: the
version-specific parse results (`header`, `metablock`) and the descriptor of
the opened file are the inputs, and the branch on the format version builds
the column readers and constructs the table reader. The v1 branch passes
`header.num_rows` and descriptor `-1` (the mmap wrapper owns the
descriptor); the v2 branch builds a `PageManager` over the descriptor and
passes `metablock.num_rows` and the released descriptor. -/
def openFile (version : BinaryFormatVersion) (header : FileHeader)
    (metablock : MetaBlock) (fd : Int) : Except Err CSTableReader :=
  match version with
  | .v0_1_0 =>
    match openColumnsV1 header.columns with
    | .error e => .error e
    | .ok column_readers =>
        mkCSTableReader .v0_1_0 header.columns column_readers
          header.num_rows (-1)
  | .v0_2_0 =>
    let page_mgr : PageManager := { fd := fd, offset := 0 }
    match openColumnsV2 page_mgr header.columns with
    | .error e => .error e
    | .ok column_readers =>
        mkCSTableReader .v0_2_0 header.columns column_readers
          metablock.num_rows fd

section HashMapLemmas

variable {α β : Type} [DecidableEq α]

/-- Lookup distributes over append: the left map is consulted first. -/
theorem hmFind_append (m1 m2 : List (α × β)) (k : α) :
    hmFind (m1 ++ m2) k =
      match hmFind m1 k with
      | some v => some v
      | none => hmFind m2 k := by
  induction m1 with
  | nil => simp [hmFind]
  | cons p rest ih =>
      by_cases h : p.1 = k <;> simp [hmFind, h, ih]

/-- Emplacing never discards an existing binding of any key. -/
theorem hmFind_hmEmplace_preserve {m : List (α × β)} {k : α} {w : β}
    (k2 : α) (v : β) (h : hmFind m k = some w) :
    hmFind (hmEmplace m k2 v) k = some w := by
  unfold hmEmplace
  by_cases hs : (hmFind m k2).isSome
  · simp [hs, h]
  · simp [hs, hmFind_append, h]

/-- Emplacing into a map without the key creates the binding. -/
theorem hmFind_hmEmplace_new {m : List (α × β)} {k : α}
    (v : β) (h : hmFind m k = none) :
    hmFind (hmEmplace m k v) k = some v := by
  unfold hmEmplace
  have hs : (hmFind m k).isSome = false := by simp [h]
  simp [hs, hmFind_append, h, hmFind]

/-- Emplacing under a different key does not change a key's lookup. -/
theorem hmFind_hmEmplace_other {m : List (α × β)} {k k2 : α}
    (v : β) (h : k ≠ k2) :
    hmFind (hmEmplace m k2 v) k = hmFind m k := by
  unfold hmEmplace
  by_cases hs : (hmFind m k2).isSome
  · simp [hs]
  · simp [hs, hmFind_append]
    cases hf : hmFind m k with
    | some w => simp
    | none =>
        simp [hmFind]
        exact fun hh => h hh.symm

/-- Every entry of an emplaced map is an old entry or the new binding. -/
theorem mem_hmEmplace_elim {m : List (α × β)} {k : α} {v : β}
    {p : α × β} (h : p ∈ hmEmplace m k v) : p ∈ m ∨ p = (k, v) := by
  unfold hmEmplace at h
  by_cases hs : (hmFind m k).isSome
  · simp [hs] at h; exact Or.inl h
  · simp [hs] at h
    rcases h with h | h
    · exact Or.inl h
    · exact Or.inr (by simp [h])

/-- Emplacing keeps every existing entry. -/
theorem mem_hmEmplace_of_mem {m : List (α × β)} {p : α × β}
    (k : α) (v : β) (h : p ∈ m) : p ∈ hmEmplace m k v := by
  unfold hmEmplace
  by_cases hs : (hmFind m k).isSome <;> simp [hs, h]

end HashMapLemmas

/-- Name-index entries of the built indices survive the remaining
iterations of the construction loop. -/
theorem buildIndexes_name_mem_preserved
    (pairs : List (ColumnConfig × ColumnReader))
    (by_id : List (Nat × ColumnReader))
    (by_name : List (String × ColumnReader))
    {p : String × ColumnReader} (h : p ∈ by_name) :
    p ∈ (buildIndexes pairs by_id by_name).2 := by
  induction pairs generalizing by_id by_name with
  | nil => simpa [buildIndexes] using h
  | cons q rest ih =>
      obtain ⟨c, r⟩ := q
      exact ih _ _ (mem_hmEmplace_of_mem _ _ h)

/-- Characterization of a name lookup on the built name index: a binding
already present in the accumulator wins, and otherwise the first column of
the remaining pairs carrying the name provides the reader. -/
theorem buildIndexes_find_name
    (pairs : List (ColumnConfig × ColumnReader))
    (by_id : List (Nat × ColumnReader))
    (by_name : List (String × ColumnReader)) (nm : String) :
    hmFind (buildIndexes pairs by_id by_name).2 nm =
      match hmFind by_name nm with
      | some v => some v
      | none =>
          (pairs.find? (fun q => q.1.column_name == nm)).map Prod.snd := by
  induction pairs generalizing by_id by_name with
  | nil => cases hf : hmFind by_name nm <;> simp [buildIndexes, hf]
  | cons q rest ih =>
      obtain ⟨c, r⟩ := q
      rw [buildIndexes, ih]
      cases hf : hmFind by_name nm with
      | some v =>
          rw [hmFind_hmEmplace_preserve c.column_name r hf]
      | none =>
          by_cases hnm : c.column_name = nm
          · subst hnm
            rw [hmFind_hmEmplace_new r hf]
            simp [List.find?]
          · rw [hmFind_hmEmplace_other r (fun hh => hnm hh.symm), hf]
            have hb : (c.column_name == nm) = false := by simp [hnm]
            simp [List.find?, hb]

/-- Every entry of the built id index comes from a pair whose column has a
positive id (or was already in the accumulator). -/
theorem buildIndexes_id_mem_elim
    (pairs : List (ColumnConfig × ColumnReader))
    (by_id : List (Nat × ColumnReader))
    (by_name : List (String × ColumnReader))
    {p : Nat × ColumnReader}
    (h : p ∈ (buildIndexes pairs by_id by_name).1) :
    p ∈ by_id ∨
      ∃ c r, (c, r) ∈ pairs ∧ p = (c.column_id, r) ∧ c.column_id > 0 := by
  induction pairs generalizing by_id by_name with
  | nil => exact Or.inl (by simpa [buildIndexes] using h)
  | cons q rest ih =>
      obtain ⟨c, r⟩ := q
      rw [buildIndexes] at h
      rcases ih _ _ h with hacc | ⟨c2, r2, hmem, hp, hpos⟩
      · by_cases hid : c.column_id > 0
        · simp [hid] at hacc
          rcases mem_hmEmplace_elim hacc with hold | hnew
          · exact Or.inl hold
          · exact Or.inr ⟨c, r, by simp, hnew, hid⟩
        · simp [hid] at hacc
          exact Or.inl hacc
      · exact Or.inr ⟨c2, r2, by simp [hmem], hp, hpos⟩

/-- Every entry of the built name index comes from a pair (or was already
in the accumulator). -/
theorem buildIndexes_name_mem_elim
    (pairs : List (ColumnConfig × ColumnReader))
    (by_id : List (Nat × ColumnReader))
    (by_name : List (String × ColumnReader))
    {p : String × ColumnReader}
    (h : p ∈ (buildIndexes pairs by_id by_name).2) :
    p ∈ by_name ∨ ∃ c r, (c, r) ∈ pairs ∧ p = (c.column_name, r) := by
  induction pairs generalizing by_id by_name with
  | nil => exact Or.inl (by simpa [buildIndexes] using h)
  | cons q rest ih =>
      obtain ⟨c, r⟩ := q
      rw [buildIndexes] at h
      rcases ih _ _ h with hacc | ⟨c2, r2, hmem, hp⟩
      · rcases mem_hmEmplace_elim hacc with hold | hnew
        · exact Or.inl hold
        · exact Or.inr ⟨c, r, by simp, hnew⟩
      · exact Or.inr ⟨c2, r2, by simp [hmem], hp⟩

/-- When the pair list carries pairwise distinct column names, none of them
already bound in the accumulator, every pair's own binding ends up in the
name index. -/
theorem buildIndexes_name_mem_of_nodup
    (pairs : List (ColumnConfig × ColumnReader))
    (by_id : List (Nat × ColumnReader))
    (by_name : List (String × ColumnReader))
    (hnodup : (pairs.map (fun q => q.1.column_name)).Nodup)
    (hfresh : ∀ q ∈ pairs, hmFind by_name q.1.column_name = none) :
    ∀ q ∈ pairs, (q.1.column_name, q.2) ∈ (buildIndexes pairs by_id by_name).2 := by
  induction pairs generalizing by_id by_name with
  | nil => intro q hq; simp at hq
  | cons q0 rest ih =>
      obtain ⟨c, r⟩ := q0
      intro q hq
      have hcf : hmFind by_name c.column_name = none :=
        hfresh (c, r) (by simp)
      have hins : (c.column_name, r) ∈ hmEmplace by_name c.column_name r := by
        unfold hmEmplace
        have : (hmFind by_name c.column_name).isSome = false := by simp [hcf]
        simp [this]
      rw [List.map_cons] at hnodup
      have hhead := List.nodup_cons.mp hnodup
      rcases List.mem_cons.mp hq with hq0 | hqrest
      · subst hq0
        rw [buildIndexes]
        exact buildIndexes_name_mem_preserved rest _ _ hins
      · rw [buildIndexes]
        have hne : ∀ q2 ∈ rest, q2.1.column_name ≠ c.column_name := by
          intro q2 hq2 heq
          apply hhead.1
          have hmem : q2.1.column_name ∈
              List.map (fun q => q.1.column_name) rest :=
            List.mem_map_of_mem _ hq2
          rw [heq] at hmem
          exact hmem
        refine ih _ _ hhead.2 ?_ q hqrest
        intro q2 hq2
        rw [hmFind_hmEmplace_other r (hne q2 hq2)]
        exact hfresh q2 (List.mem_cons_of_mem _ hq2)

/-- In a pair list whose second components are pairwise distinct, a shared
second component forces the first components to coincide. -/
theorem snd_nodup_inj {γ δ : Type} {l : List (γ × δ)}
    (hnodup : (l.map Prod.snd).Nodup) {a a2 : γ} {b : δ}
    (h1 : (a, b) ∈ l) (h2 : (a2, b) ∈ l) : a = a2 := by
  induction l with
  | nil => simp at h1
  | cons p rest ih =>
      rw [List.map_cons] at hnodup
      have hhead := List.nodup_cons.mp hnodup
      rcases List.mem_cons.mp h1 with e1 | m1 <;>
        rcases List.mem_cons.mp h2 with e2 | m2
      · rw [← e2] at e1
        exact ((Prod.mk.injEq a b a2 b).mp e1).1
      · exfalso
        apply hhead.1
        rw [← e1]
        have hb : Prod.snd (a2, b) ∈ List.map Prod.snd rest :=
          List.mem_map_of_mem Prod.snd m2
        exact hb
      · exfalso
        apply hhead.1
        rw [← e2]
        have hb : Prod.snd (a, b) ∈ List.map Prod.snd rest :=
          List.mem_map_of_mem Prod.snd m1
        exact hb
      · exact ih hhead.2 m1 m2

/-- A key bound in the map is found. -/
theorem hmFind_isSome_of_mem {α β : Type} [DecidableEq α]
    {m : List (α × β)} {k : α} {v : β} (h : (k, v) ∈ m) :
    (hmFind m k).isSome := by
  induction m with
  | nil => simp at h
  | cons p rest ih =>
      rcases List.mem_cons.mp h with e | hm
      · rw [← e]; simp [hmFind]
      · unfold hmFind
        by_cases hp : p.1 = k <;> simp [hp, ih hm]

/-- Characterization of a successful `CSTableReader` construction: the
length check passes and the resulting state stores the inputs together with
the two indices built by the loop. -/
theorem mkCSTableReader_ok_iff (version : BinaryFormatVersion)
    (columns : List ColumnConfig) (column_readers : List ColumnReader)
    (num_rows : Nat) (fd : Int) (st : CSTableReader) :
    mkCSTableReader version columns column_readers num_rows fd = .ok st ↔
      column_readers.length = columns.length ∧
      st = { version_ := version, columns_ := columns,
             num_rows_ := num_rows, fd_ := fd,
             column_readers_by_id_ :=
               (buildIndexes (columns.zip column_readers) [] []).1,
             column_readers_by_name_ :=
               (buildIndexes (columns.zip column_readers) [] []).2 } := by
  unfold mkCSTableReader
  by_cases h : column_readers.length = columns.length
  · simp [h]
    exact eq_comm
  · simp [h]

/-- A successful v1 column-construction loop yields one reader per config. -/
theorem openColumnsV1_length {cols : List ColumnConfig}
    {rs : List ColumnReader} (h : openColumnsV1 cols = .ok rs) :
    rs.length = cols.length := by
  induction cols generalizing rs with
  | nil =>
      rw [openColumnsV1] at h
      simp at h
      simp [← h]
  | cons c rest ih =>
      rw [openColumnsV1] at h
      cases h1 : openColumnV1 c with
      | error e => rw [h1] at h; exact absurd h (by simp)
      | ok r =>
          rw [h1] at h
          cases h2 : openColumnsV1 rest with
          | error e => rw [h2] at h; exact absurd h (by simp)
          | ok rs2 =>
              rw [h2] at h
              simp at h
              rw [← h]
              simp [ih h2]

/-- Readers produced by the v1 loop carry the config they were opened
from. -/
theorem openColumnsV1_config {cols : List ColumnConfig}
    {rs : List ColumnReader} (h : openColumnsV1 cols = .ok rs) :
    ∀ q ∈ cols.zip rs, q.2.config = q.1 := by
  induction cols generalizing rs with
  | nil =>
      rw [openColumnsV1] at h
      simp at h
      simp [← h]
  | cons c rest ih =>
      rw [openColumnsV1] at h
      cases h1 : openColumnV1 c with
      | error e => rw [h1] at h; exact absurd h (by simp)
      | ok r =>
          rw [h1] at h
          cases h2 : openColumnsV1 rest with
          | error e => rw [h2] at h; exact absurd h (by simp)
          | ok rs2 =>
              rw [h2] at h
              simp at h
              rw [← h]
              intro q hq
              rcases List.mem_cons.mp hq with e | hm
              · rw [e]
              · exact ih h2 q hm

/-- A successful v2 column-construction loop yields one reader per config. -/
theorem openColumnsV2_length {page_mgr : PageManager}
    {cols : List ColumnConfig} {rs : List ColumnReader}
    (h : openColumnsV2 page_mgr cols = .ok rs) :
    rs.length = cols.length := by
  induction cols generalizing rs with
  | nil =>
      rw [openColumnsV2] at h
      simp at h
      simp [← h]
  | cons c rest ih =>
      rw [openColumnsV2] at h
      cases h1 : openColumnV2 c page_mgr with
      | error e => rw [h1] at h; exact absurd h (by simp)
      | ok r =>
          rw [h1] at h
          cases h2 : openColumnsV2 page_mgr rest with
          | error e => rw [h2] at h; exact absurd h (by simp)
          | ok rs2 =>
              rw [h2] at h
              simp at h
              rw [← h]
              simp [ih h2]

/-- Readers produced by the v2 loop carry the config they were opened
from. -/
theorem openColumnsV2_config {page_mgr : PageManager}
    {cols : List ColumnConfig} {rs : List ColumnReader}
    (h : openColumnsV2 page_mgr cols = .ok rs) :
    ∀ q ∈ cols.zip rs, q.2.config = q.1 := by
  induction cols generalizing rs with
  | nil =>
      rw [openColumnsV2] at h
      simp at h
      simp [← h]
  | cons c rest ih =>
      rw [openColumnsV2] at h
      cases h1 : openColumnV2 c page_mgr with
      | error e => rw [h1] at h; exact absurd h (by simp)
      | ok r =>
          rw [h1] at h
          cases h2 : openColumnsV2 page_mgr rest with
          | error e => rw [h2] at h; exact absurd h (by simp)
          | ok rs2 =>
              rw [h2] at h
              simp at h
              rw [← h]
              intro q hq
              rcases List.mem_cons.mp hq with e | hm
              · rw [e]
              · exact ih h2 q hm

/-- Elimination of a successful v1 `openFile`: the column loop succeeded and
the reader state is fully determined by the header, the legacy row count
and descriptor `-1`. -/
theorem openFile_v1_ok {header : FileHeader} {metablock : MetaBlock}
    {fd : Int} {st : CSTableReader}
    (h : openFile .v0_1_0 header metablock fd = .ok st) :
    ∃ rs, openColumnsV1 header.columns = .ok rs ∧
      rs.length = header.columns.length ∧
      st = { version_ := .v0_1_0, columns_ := header.columns,
             num_rows_ := header.num_rows, fd_ := -1,
             column_readers_by_id_ :=
               (buildIndexes (header.columns.zip rs) [] []).1,
             column_readers_by_name_ :=
               (buildIndexes (header.columns.zip rs) [] []).2 } := by
  rw [openFile] at h
  cases h1 : openColumnsV1 header.columns with
  | error e => rw [h1] at h; exact absurd h (by simp)
  | ok rs =>
      rw [h1] at h
      obtain ⟨hlen, hst⟩ := (mkCSTableReader_ok_iff _ _ _ _ _ _).mp h
      exact ⟨rs, rfl, hlen, hst⟩

/-- Elimination of a successful v2 `openFile`: the column loop against the
page manager over the descriptor succeeded and the reader state stores the
metablock row count and the released descriptor. -/
theorem openFile_v2_ok {header : FileHeader} {metablock : MetaBlock}
    {fd : Int} {st : CSTableReader}
    (h : openFile .v0_2_0 header metablock fd = .ok st) :
    ∃ rs, openColumnsV2 { fd := fd, offset := 0 } header.columns = .ok rs ∧
      rs.length = header.columns.length ∧
      st = { version_ := .v0_2_0, columns_ := header.columns,
             num_rows_ := metablock.num_rows, fd_ := fd,
             column_readers_by_id_ :=
               (buildIndexes (header.columns.zip rs) [] []).1,
             column_readers_by_name_ :=
               (buildIndexes (header.columns.zip rs) [] []).2 } := by
  rw [openFile] at h
  cases h1 : openColumnsV2 { fd := fd, offset := 0 } header.columns with
  | error e => rw [h1] at h; exact absurd h (by simp)
  | ok rs =>
      rw [h1] at h
      obtain ⟨hlen, hst⟩ := (mkCSTableReader_ok_iff _ _ _ _ _ _).mp h
      exact ⟨rs, rfl, hlen, hst⟩

/-- Zipping with the readers preserves distinctness of the column names. -/
theorem zip_names_nodup {cols : List ColumnConfig}
    {readers : List ColumnReader} (hlen : readers.length = cols.length)
    (hnames : (cols.map (fun c => c.column_name)).Nodup) :
    ((cols.zip readers).map (fun q => q.1.column_name)).Nodup := by
  have h1 : (cols.zip readers).map Prod.fst = cols :=
    List.map_fst_zip cols readers (le_of_eq hlen.symm)
  have h2 : ((cols.zip readers).map Prod.fst).map (fun c => c.column_name) =
      (cols.zip readers).map (fun q => q.1.column_name) := by
    rw [List.map_map]
    rfl
  rw [← h2, h1]
  exact hnames

/-- Zipping with the configs preserves distinctness of the readers. -/
theorem zip_readers_nodup {cols : List ColumnConfig}
    {readers : List ColumnReader} (hlen : readers.length = cols.length)
    (hreaders : readers.Nodup) :
    ((cols.zip readers).map Prod.snd).Nodup := by
  rw [List.map_snd_zip cols readers (le_of_eq hlen)]
  exact hreaders

/-- Every element of the left list of a zip appears in some pair when the
right list is long enough. -/
theorem exists_zip_of_mem_left {γ δ : Type} {l1 : List γ} {l2 : List δ}
    (hlen : l1.length ≤ l2.length) {a : γ} (h : a ∈ l1) :
    ∃ b, (a, b) ∈ l1.zip l2 := by
  induction l1 generalizing l2 with
  | nil => simp at h
  | cons x rest ih =>
      cases l2 with
      | nil => simp at hlen
      | cons y rest2 =>
          rcases List.mem_cons.mp h with e | hm
          · exact ⟨y, by simp [e]⟩
          · obtain ⟨b, hb⟩ := ih (by simpa using hlen) hm
            exact ⟨b, by simp [hb]⟩

/-- Sample config of a plain always-present uint64 column. -/
def colA : ColumnConfig :=
  { column_id := 1, column_name := "id", storage_type := .UINT64_PLAIN,
    logical_type := .UNSIGNED_INT, rlevel_max := 0, dlevel_max := 0,
    body_offset := 100, body_size := 24 }

/-- Sample config of a repeated optional string column, with id 0. -/
def colB : ColumnConfig :=
  { column_id := 0, column_name := "tags", storage_type := .STRING_PLAIN,
    logical_type := .STRING, rlevel_max := 1, dlevel_max := 1,
    body_offset := 124, body_size := 40 }

/-- Sample config of a repeated optional unsigned-int column for the v2
layout. -/
def colC : ColumnConfig :=
  { column_id := 2, column_name := "count", storage_type := .UINT64_LEB128,
    logical_type := .UNSIGNED_INT, rlevel_max := 1, dlevel_max := 1,
    body_offset := 0, body_size := 0 }

/-- Sample v1 file header with two columns and three rows. -/
def hdr1 : FileHeader := { columns := [colA, colB], num_rows := 3 }

/-- Sample v2 file header; its legacy row count 3 differs from the
metablock's. -/
def hdr2 : FileHeader := { columns := [colA, colC], num_rows := 3 }

/-- Sample metablock whose row count differs from the legacy headers'. -/
def mb1 : MetaBlock := { num_rows := 5 }

/-- Reader state with no columns, used as the fallback of the sample-state
extractions below. -/
def emptyReader : CSTableReader :=
  { version_ := .v0_1_0, columns_ := [], num_rows_ := 0, fd_ := -1,
    column_readers_by_id_ := [], column_readers_by_name_ := [] }

/-- The reader state produced by opening the sample v1 file. -/
def sampleReaderV1 : CSTableReader :=
  (openFile .v0_1_0 hdr1 mb1 (-1)).toOption.getD emptyReader

/-- The reader state produced by opening the sample v2 file on descriptor
4. -/
def sampleReaderV2 : CSTableReader :=
  (openFile .v0_2_0 hdr2 mb1 4).toOption.getD emptyReader

/-- The decoder constructed for `colA` on the v1 path. -/
def rdrA : ColumnReader :=
  { config := colA, impl := .v1 (.uint64ColumnReader 0 0 100 24) }

/-- The decoder constructed for `colB` on the v1 path. -/
def rdrB : ColumnReader :=
  { config := colB, impl := .v1 (.stringColumnReader 1 1 124 40) }

example : openFile .v0_1_0 hdr1 mb1 (-1) = .ok sampleReaderV1 := by rfl

example : openColumnsV1 hdr1.columns = .ok [rdrA, rdrB] := by rfl

example : sampleReaderV1.column_readers_by_name_ =
    [("id", rdrA), ("tags", rdrB)] := by rfl

example : sampleReaderV1.column_readers_by_id_ = [(1, rdrA)] := by rfl

example : openFile .v0_2_0 hdr2 mb1 4 = .ok sampleReaderV2 := by rfl

example : rdrA ≠ rdrB := by decide

/-- Config with positive level maxima that reaches the v2 construction
path (logical type `UNSIGNED_INT`). -/
def c1cfg : ColumnConfig :=
  { column_id := 7, column_name := "nested", storage_type := .UINT64_PLAIN,
    logical_type := .UNSIGNED_INT, rlevel_max := 1, dlevel_max := 1,
    body_offset := 0, body_size := 0 }

/-- Sample page manager over descriptor 3. -/
def pm0 : PageManager := { fd := 3, offset := 0 }

/-- C1: evaluation of the v2 column construction at a column config with
`dlevel_max = 1 > 0`. Contrary to the claim (and to the contract the spec
states as intended), no DLEVEL page-stream reader is resolved: the
constructed decoder receives `none` for its definition-level reader on
every path, because the function body declares the `dlevel_reader`
`ScopedPtr` but never assigns it; only the RLEVEL reader (here `some`,
since `rlevel_max = 1 > 0`) is resolved. -/
theorem c1_openColumnV2_dlevel_never_resolved :
    c1cfg.dlevel_max > 0 ∧
    openColumnV2 c1cfg pm0 =
      .ok { config := c1cfg, rlevel_reader := some { page_mgr := pm0 },
            dlevel_reader := none, page_mgr := pm0 } :=
  ⟨by decide, rfl⟩

/-- C4: the v1 column dispatch is a closed table over `storage_type`. Each
of the seven tags constructs exactly its concrete decoder from
`(rlevel_max, dlevel_max, data pointer, data size)`, and any other tag
yields the unsupported-column-type fatal error carrying that numeric tag
value; no decoder is returned in the error case. -/
theorem c4_openColumnV1_dispatch (c : ColumnConfig) :
    (c.storage_type = .BOOLEAN_BITPACKED → openColumnV1 c =
      .ok (.booleanColumnReader c.rlevel_max c.dlevel_max c.body_offset c.body_size))
  ∧ (c.storage_type = .UINT32_BITPACKED → openColumnV1 c =
      .ok (.bitPackedIntColumnReader c.rlevel_max c.dlevel_max c.body_offset c.body_size))
  ∧ (c.storage_type = .UINT32_PLAIN → openColumnV1 c =
      .ok (.uint32ColumnReader c.rlevel_max c.dlevel_max c.body_offset c.body_size))
  ∧ (c.storage_type = .UINT64_PLAIN → openColumnV1 c =
      .ok (.uint64ColumnReader c.rlevel_max c.dlevel_max c.body_offset c.body_size))
  ∧ (c.storage_type = .UINT64_LEB128 → openColumnV1 c =
      .ok (.leb128ColumnReader c.rlevel_max c.dlevel_max c.body_offset c.body_size))
  ∧ (c.storage_type = .FLOAT_IEEE754 → openColumnV1 c =
      .ok (.doubleColumnReader c.rlevel_max c.dlevel_max c.body_offset c.body_size))
  ∧ (c.storage_type = .STRING_PLAIN → openColumnV1 c =
      .ok (.stringColumnReader c.rlevel_max c.dlevel_max c.body_offset c.body_size))
  ∧ (∀ tag, c.storage_type = .otherEncoding tag →
      openColumnV1 c = .error (.unsupportedColumnType tag)) := by
  refine ⟨fun h => by rw [openColumnV1, h], fun h => by rw [openColumnV1, h],
    fun h => by rw [openColumnV1, h], fun h => by rw [openColumnV1, h],
    fun h => by rw [openColumnV1, h], fun h => by rw [openColumnV1, h],
    fun h => by rw [openColumnV1, h], fun tag h => by rw [openColumnV1, h]⟩

/-- C4 witness: the dispatch evaluated at the sample uint64 column and at a
column carrying the out-of-table tag 255. -/
theorem c4_openColumnV1_dispatch_witness :
    openColumnV1 colA =
      .ok (.uint64ColumnReader colA.rlevel_max colA.dlevel_max
            colA.body_offset colA.body_size)
  ∧ openColumnV1 { colA with storage_type := .otherEncoding 255 } =
      .error (.unsupportedColumnType 255) :=
  ⟨(c4_openColumnV1_dispatch colA).2.2.2.1 rfl,
   (c4_openColumnV1_dispatch
      { colA with storage_type := .otherEncoding 255 }).2.2.2.2.2.2.2 255 rfl⟩

/-- Config whose storage tag (99) and logical tag (7) are distinct
out-of-enumeration values. -/
def c5cfg : ColumnConfig :=
  { column_id := 2, column_name := "blob", storage_type := .otherEncoding 99,
    logical_type := .otherType 7, rlevel_max := 0, dlevel_max := 0,
    body_offset := 0, body_size := 0 }

/-- C5 counterexample: on a column whose logical type (numeric tag 7) fails
the v2 dispatch, the raised unsupported-encoding error carries 99 — the
numeric `storage_type` tag, which the error site formats — and not the
logical-type tag 7 the claim requires. -/
theorem c5_error_tag_counterexample :
    openColumnV2 c5cfg pm0 = .error (.unsupportedColumnType 99)
  ∧ c5cfg.logical_type.toNat = 7
  ∧ openColumnV2 c5cfg pm0 ≠
      .error (.unsupportedColumnType c5cfg.logical_type.toNat) := by
  refine ⟨rfl, rfl, ?_⟩
  intro h
  rw [show openColumnV2 c5cfg pm0 =
        .error (.unsupportedColumnType 99) from rfl] at h
  simp [c5cfg, ColumnType.toNat] at h

/-- C5 (amended): the v2 dispatch on `logical_type` constructs a decoder
only for `UNSIGNED_INT`; every other logical type raises the
unsupported-encoding fatal error, which carries the numeric `storage_type`
tag of the column (the error site formats `(uint32_t) c.storage_type`, not
the logical-type value that failed the dispatch). -/
theorem c5_openColumnV2_dispatch (c : ColumnConfig) (pm : PageManager) :
    (c.logical_type = .UNSIGNED_INT →
      openColumnV2 c pm =
        .ok { config := c,
              rlevel_reader :=
                if c.rlevel_max > 0 then some { page_mgr := pm } else none,
              dlevel_reader := none, page_mgr := pm })
  ∧ (c.logical_type ≠ .UNSIGNED_INT →
      openColumnV2 c pm =
        .error (.unsupportedColumnType c.storage_type.toNat)) := by
  constructor
  · intro h
    rw [openColumnV2, h]
  · intro h
    rw [openColumnV2]
    cases hl : c.logical_type
    case UNSIGNED_INT => exact absurd hl h
    all_goals rfl

/-- C5 witness: the dispatch evaluated at the sample unsigned-int column
(decoder constructed) and at a string-typed column (error carrying the
numeric storage tag, here 4 for `UINT64_PLAIN`). -/
theorem c5_openColumnV2_dispatch_witness :
    openColumnV2 colA pm0 =
      .ok { config := colA, rlevel_reader := none,
            dlevel_reader := none, page_mgr := pm0 }
  ∧ openColumnV2 { colA with logical_type := .STRING } pm0 =
      .error (.unsupportedColumnType 4) :=
  ⟨(c5_openColumnV2_dispatch colA pm0).1 rfl,
   (c5_openColumnV2_dispatch
      { colA with logical_type := .STRING } pm0).2 (by decide)⟩

/-- C2: for every successfully opened file, `numRecords()` returns the row
count fixed at construction, sourced per format version: `FileHeader.num_rows`
for a v0_1_0 file and `MetaBlock.num_rows` for a v0_2_0 file, even when the
two differ. -/
theorem c2_numRecords_by_version (hdr : FileHeader) (mb : MetaBlock)
    (fd : Int) (st1 st2 : CSTableReader) :
    (openFile .v0_1_0 hdr mb fd = .ok st1 →
        (CSTableReader.numRecords st1).1 = hdr.num_rows)
  ∧ (openFile .v0_2_0 hdr mb fd = .ok st2 →
        (CSTableReader.numRecords st2).1 = mb.num_rows) := by
  constructor
  · intro h
    obtain ⟨rs, h1, hlen, hst⟩ := openFile_v1_ok h
    subst hst
    rfl
  · intro h
    obtain ⟨rs, h1, hlen, hst⟩ := openFile_v2_ok h
    subst hst
    rfl

/-- C2 witness: the sample v1 file reports the header row count 3 and the
sample v2 file reports the metablock row count 5, while its legacy header
value is 3. -/
theorem c2_numRecords_by_version_witness :
    (CSTableReader.numRecords sampleReaderV1).1 = hdr1.num_rows
  ∧ (CSTableReader.numRecords sampleReaderV2).1 = mb1.num_rows
  ∧ hdr2.num_rows ≠ mb1.num_rows :=
  ⟨(c2_numRecords_by_version hdr1 mb1 (-1) sampleReaderV1 sampleReaderV1).1
      (by rfl),
   (c2_numRecords_by_version hdr2 mb1 4 sampleReaderV2 sampleReaderV2).2
      (by rfl),
   by decide⟩

/-- C3: `hasColumn` is a non-failing existence check that agrees with the
name index (true exactly when the name is a key), a bound name makes
`getColumnReader` succeed with the indexed decoder, an absent name makes it
fail with the not-found error, and both calls leave the reader state
unchanged. -/
theorem c3_hasColumn_getColumnReader (st : CSTableReader) (nm : String) :
    ((CSTableReader.hasColumn st nm).1 = true ↔
        (hmFind st.column_readers_by_name_ nm).isSome)
  ∧ (∀ r, hmFind st.column_readers_by_name_ nm = some r →
        (CSTableReader.hasColumn st nm).1 = true
      ∧ (CSTableReader.getColumnReader st nm).1 = .ok r)
  ∧ ((CSTableReader.hasColumn st nm).1 = false →
        (CSTableReader.getColumnReader st nm).1 =
          .error (.columnNotFound nm))
  ∧ (CSTableReader.getColumnReader st nm).2 = st
  ∧ (CSTableReader.hasColumn st nm).2 = st := by
  unfold CSTableReader.hasColumn CSTableReader.getColumnReader
  cases hf : hmFind st.column_readers_by_name_ nm <;> simp [hf]

/-- C3 witness: on the sample v1 reader, the bound name "id" is reported
present and resolves to its decoder, while "nope" is reported absent and
fails with the not-found error. -/
theorem c3_hasColumn_getColumnReader_witness :
    ((CSTableReader.hasColumn sampleReaderV1 "id").1 = true
      ∧ (CSTableReader.getColumnReader sampleReaderV1 "id").1 = .ok rdrA)
  ∧ (CSTableReader.getColumnReader sampleReaderV1 "nope").1 =
      .error (.columnNotFound "nope") :=
  ⟨(c3_hasColumn_getColumnReader sampleReaderV1 "id").2.1 rdrA (by rfl),
   (c3_hasColumn_getColumnReader sampleReaderV1 "nope").2.2.1 (by rfl)⟩

/-- C7: `getColumnEncoding` and `getColumnType` project the `storage_type`
and `logical_type` of the resolved decoder's `ColumnConfig` through
`getColumnReader`, sharing its failure exactly; and on every constructed
reader each name-index entry's decoder carries a config from the file
header whose name is the entry's key. -/
theorem c7_type_projections (st : CSTableReader) (nm : String) :
    (∀ r, (CSTableReader.getColumnReader st nm).1 = .ok r →
        (CSTableReader.getColumnEncoding st nm).1 =
          .ok r.config.storage_type
      ∧ (CSTableReader.getColumnType st nm).1 =
          .ok r.config.logical_type)
  ∧ (∀ e, (CSTableReader.getColumnReader st nm).1 = .error e →
        (CSTableReader.getColumnEncoding st nm).1 = .error e
      ∧ (CSTableReader.getColumnType st nm).1 = .error e)
  ∧ (∀ (v : BinaryFormatVersion) (hdr : FileHeader) (mb : MetaBlock)
        (fdv : Int) (st2 : CSTableReader),
        openFile v hdr mb fdv = .ok st2 →
        ∀ p ∈ st2.column_readers_by_name_,
          p.2.config ∈ hdr.columns ∧ p.2.config.column_name = p.1) := by
  refine ⟨?_, ?_, ?_⟩
  · intro r h
    unfold CSTableReader.getColumnEncoding CSTableReader.getColumnType
    unfold CSTableReader.getColumnReader at h ⊢
    cases hf : hmFind st.column_readers_by_name_ nm <;> rw [hf] at h
    · exact absurd h (by simp)
    · simp at h
      subst h
      exact ⟨rfl, rfl⟩
  · intro e h
    unfold CSTableReader.getColumnEncoding CSTableReader.getColumnType
    unfold CSTableReader.getColumnReader at h ⊢
    cases hf : hmFind st.column_readers_by_name_ nm <;> rw [hf] at h
    · simp at h
      subst h
      exact ⟨rfl, rfl⟩
    · exact absurd h (by simp)
  · intro v hdr mb fdv st2 h p hp
    cases v with
    | v0_1_0 =>
        obtain ⟨rs, h1, hlen, hst⟩ := openFile_v1_ok h
        subst hst
        rcases buildIndexes_name_mem_elim _ _ _ hp with h0 | ⟨c, r, hm, hpe⟩
        · simp at h0
        · have hcfg := openColumnsV1_config h1 (c, r) hm
          have hc : c ∈ hdr.columns := (List.of_mem_zip hm).1
          subst hpe
          rw [show ((c.column_name, r) : String × ColumnReader).2 = r from rfl,
              hcfg]
          exact ⟨hc, rfl⟩
    | v0_2_0 =>
        obtain ⟨rs, h1, hlen, hst⟩ := openFile_v2_ok h
        subst hst
        rcases buildIndexes_name_mem_elim _ _ _ hp with h0 | ⟨c, r, hm, hpe⟩
        · simp at h0
        · have hcfg := openColumnsV2_config h1 (c, r) hm
          have hc : c ∈ hdr.columns := (List.of_mem_zip hm).1
          subst hpe
          rw [show ((c.column_name, r) : String × ColumnReader).2 = r from rfl,
              hcfg]
          exact ⟨hc, rfl⟩

/-- C7 witness: on the sample v1 reader, the projections at "id" return the
storage and logical type recorded in `colA`. -/
theorem c7_type_projections_witness :
    (CSTableReader.getColumnEncoding sampleReaderV1 "id").1 =
      .ok rdrA.config.storage_type
  ∧ (CSTableReader.getColumnType sampleReaderV1 "id").1 =
      .ok rdrA.config.logical_type :=
  (c7_type_projections sampleReaderV1 "id").1 rdrA (by rfl)

/-- C8: no query operation mutates the reader state: each call returns the
state it was given, so any sequence of query calls leaves the columns list,
the row count and both indices unchanged; and `columns()` always returns
the stored ordered column list, which on every constructed reader is the
header's on-disk column order. -/
theorem c8_queries_pure (st : CSTableReader) (nm : String) :
    (CSTableReader.getColumnReader st nm).2 = st
  ∧ (CSTableReader.getColumnEncoding st nm).2 = st
  ∧ (CSTableReader.getColumnType st nm).2 = st
  ∧ (CSTableReader.columns st).2 = st
  ∧ (CSTableReader.hasColumn st nm).2 = st
  ∧ (CSTableReader.numRecords st).2 = st
  ∧ (CSTableReader.columns st).1 = st.columns_
  ∧ (∀ (v : BinaryFormatVersion) (hdr : FileHeader) (mb : MetaBlock)
        (fdv : Int) (st2 : CSTableReader),
        openFile v hdr mb fdv = .ok st2 →
        (CSTableReader.columns st2).1 = hdr.columns) := by
  have hr : (CSTableReader.getColumnReader st nm).2 = st := by
    unfold CSTableReader.getColumnReader
    cases hmFind st.column_readers_by_name_ nm <;> rfl
  refine ⟨hr, ?_, ?_, rfl, rfl, rfl, rfl, ?_⟩
  · unfold CSTableReader.getColumnEncoding CSTableReader.getColumnReader
    cases hmFind st.column_readers_by_name_ nm <;> rfl
  · unfold CSTableReader.getColumnType CSTableReader.getColumnReader
    cases hmFind st.column_readers_by_name_ nm <;> rfl
  · intro v hdr mb fdv st2 h
    cases v with
    | v0_1_0 =>
        obtain ⟨rs, h1, hlen, hst⟩ := openFile_v1_ok h
        subst hst
        rfl
    | v0_2_0 =>
        obtain ⟨rs, h1, hlen, hst⟩ := openFile_v2_ok h
        subst hst
        rfl

/-- C8 witness: the query operations evaluated on the sample v1 reader
return the reader state unchanged and the header's column order. -/
theorem c8_queries_pure_witness :
    (CSTableReader.getColumnReader sampleReaderV1 "id").2 = sampleReaderV1
  ∧ (CSTableReader.columns sampleReaderV1).1 = hdr1.columns :=
  ⟨(c8_queries_pure sampleReaderV1 "id").1,
   (c8_queries_pure sampleReaderV1 "id").2.2.2.2.2.2.2
      .v0_1_0 hdr1 mb1 (-1) sampleReaderV1 (by rfl)⟩

/-- C10: the destructor closes the stored descriptor exactly when it is
strictly positive; a v0_1_0 reader is constructed with descriptor -1 and
never closes one, while a v0_2_0 reader stores the released descriptor and
closes it on destruction — except that a descriptor with numeric value 0
(or negative) is never closed. -/
theorem c10_destructor_close_policy (hdr : FileHeader) (mb : MetaBlock)
    (fdv : Int) (st1 st2 : CSTableReader) :
    (∀ st : CSTableReader, (destructorClosesFd st).isSome ↔ st.fd_ > 0)
  ∧ (∀ st : CSTableReader, ∀ x, destructorClosesFd st = some x → x = st.fd_)
  ∧ (openFile .v0_1_0 hdr mb fdv = .ok st1 →
        st1.fd_ = -1 ∧ destructorClosesFd st1 = none)
  ∧ (openFile .v0_2_0 hdr mb fdv = .ok st2 →
        st2.fd_ = fdv
      ∧ (fdv > 0 → destructorClosesFd st2 = some fdv)
      ∧ (fdv ≤ 0 → destructorClosesFd st2 = none)) := by
  refine ⟨?_, ?_, ?_, ?_⟩
  · intro st
    unfold destructorClosesFd
    by_cases h : st.fd_ > 0 <;> simp [h]
  · intro st x h
    unfold destructorClosesFd at h
    by_cases hp : st.fd_ > 0
    · simp [hp] at h
      exact h.symm
    · simp [hp] at h
  · intro h
    obtain ⟨rs, h1, hlen, hst⟩ := openFile_v1_ok h
    subst hst
    exact ⟨rfl, rfl⟩
  · intro h
    obtain ⟨rs, h1, hlen, hst⟩ := openFile_v2_ok h
    subst hst
    refine ⟨rfl, ?_, ?_⟩
    · intro hp
      unfold destructorClosesFd
      simp [hp]
    · intro hp
      unfold destructorClosesFd
      simp
      omega

/-- C10 witness: the sample v2 reader on descriptor 4 closes 4 on
destruction; the sample v1 reader stores -1 and closes nothing. -/
theorem c10_destructor_close_policy_witness :
    sampleReaderV2.fd_ = 4
  ∧ destructorClosesFd sampleReaderV2 = some 4
  ∧ sampleReaderV1.fd_ = -1
  ∧ destructorClosesFd sampleReaderV1 = none := by
  have h2 := (c10_destructor_close_policy hdr2 mb1 4
      sampleReaderV1 sampleReaderV2).2.2.2 (by rfl)
  have h1 := (c10_destructor_close_policy hdr1 mb1 (-1)
      sampleReaderV1 sampleReaderV2).2.2.1 (by rfl)
  exact ⟨h2.1, h2.2.1 (by decide), h1.1, h1.2⟩

/-- C6: on every successful construction the reader list and the config
list have equal length (construction fails with the check error
otherwise), every column's name is a key of the name index, every id-index
entry has a strictly positive key and its decoder is also reachable
through the name index, and a column with id 0 never has its decoder in
the id index — it is reachable only by name. Names are assumed pairwise
distinct (the spec's data model declares `column_name` unique, treating
duplicates as a format error) and the decoders pairwise distinct (distinct
heap objects in the C++ source). -/
theorem c6_constructor_invariants (v : BinaryFormatVersion)
    (cols : List ColumnConfig) (readers : List ColumnReader)
    (n : Nat) (fd : Int)
    (hnames : (cols.map (fun c => c.column_name)).Nodup)
    (hreaders : readers.Nodup) :
    (readers.length ≠ cols.length →
        mkCSTableReader v cols readers n fd =
          .error (.checkFailed "illegal column list"))
  ∧ (∀ st, mkCSTableReader v cols readers n fd = .ok st →
        readers.length = cols.length
      ∧ (∀ c ∈ cols,
            (hmFind st.column_readers_by_name_ c.column_name).isSome)
      ∧ (∀ p ∈ st.column_readers_by_id_, p.1 > 0)
      ∧ (∀ p ∈ st.column_readers_by_id_,
            ∃ q ∈ st.column_readers_by_name_, q.2 = p.2)
      ∧ (∀ q ∈ cols.zip readers, q.1.column_id = 0 →
            ∀ p ∈ st.column_readers_by_id_, p.2 ≠ q.2)) := by
  constructor
  · intro h
    unfold mkCSTableReader
    simp [h]
  · intro st hok
    obtain ⟨hlen, hst⟩ := (mkCSTableReader_ok_iff _ _ _ _ _ _).mp hok
    subst hst
    have hznames := zip_names_nodup hlen hnames
    have hzreaders := zip_readers_nodup hlen hreaders
    have hmemname : ∀ q ∈ cols.zip readers,
        (q.1.column_name, q.2) ∈ (buildIndexes (cols.zip readers) [] []).2 :=
      buildIndexes_name_mem_of_nodup _ _ _ hznames (fun q hq => rfl)
    refine ⟨hlen, ?_, ?_, ?_, ?_⟩
    · intro c hc
      obtain ⟨r, hr⟩ := exists_zip_of_mem_left (le_of_eq hlen.symm) hc
      exact hmFind_isSome_of_mem (hmemname (c, r) hr)
    · intro p hp
      rcases buildIndexes_id_mem_elim _ _ _ hp with h0 | ⟨c, r, hm, hpe, hpos⟩
      · simp at h0
      · rw [hpe]
        exact hpos
    · intro p hp
      rcases buildIndexes_id_mem_elim _ _ _ hp with h0 | ⟨c, r, hm, hpe, hpos⟩
      · simp at h0
      · refine ⟨(c.column_name, r), hmemname (c, r) hm, ?_⟩
        rw [hpe]
    · intro q hq hq0 p hp heq
      rcases buildIndexes_id_mem_elim _ _ _ hp with h0 | ⟨c, r, hm, hpe, hpos⟩
      · simp at h0
      · have hr : p.2 = r := by rw [hpe]
        rw [hr] at heq
        have hq2 : (q.1, r) ∈ cols.zip readers := by
          rw [heq]
          exact hq
        have hceq : c = q.1 := snd_nodup_inj hzreaders hm hq2
        rw [hceq] at hpos
        rw [hq0] at hpos
        exact absurd hpos (by decide)

/-- C6 witness: the invariants evaluated on the sample v1 construction —
two distinct column names, two distinct decoders, equal lengths, and the
id-0 column `tags` absent from the id index. -/
theorem c6_constructor_invariants_witness :
    ([rdrA, rdrB].length = [colA, colB].length)
  ∧ (∀ c ∈ [colA, colB],
        (hmFind sampleReaderV1.column_readers_by_name_ c.column_name).isSome)
  ∧ (∀ p ∈ sampleReaderV1.column_readers_by_id_, p.1 > 0) := by
  have h := (c6_constructor_invariants .v0_1_0 [colA, colB] [rdrA, rdrB]
      3 (-1) (by decide) (by decide)).2 sampleReaderV1 (by rfl)
  exact ⟨h.1, h.2.1, h.2.2.1⟩

/-- First duplicate-named column of the C9 scenario. -/
def dupA : ColumnConfig :=
  { column_id := 1, column_name := "x", storage_type := .UINT32_PLAIN,
    logical_type := .UNSIGNED_INT, rlevel_max := 0, dlevel_max := 0,
    body_offset := 10, body_size := 4 }

/-- Second (last-declared) column sharing the name "x". -/
def dupB : ColumnConfig :=
  { column_id := 2, column_name := "x", storage_type := .UINT64_PLAIN,
    logical_type := .UNSIGNED_INT, rlevel_max := 0, dlevel_max := 0,
    body_offset := 14, body_size := 8 }

/-- Header of the file with two columns named "x". -/
def dupHdr : FileHeader := { columns := [dupA, dupB], num_rows := 1 }

/-- Decoder constructed for `dupA` on the v1 path. -/
def rdrDupA : ColumnReader :=
  { config := dupA, impl := .v1 (.uint32ColumnReader 0 0 10 4) }

/-- Decoder constructed for `dupB` on the v1 path. -/
def rdrDupB : ColumnReader :=
  { config := dupB, impl := .v1 (.uint64ColumnReader 0 0 14 8) }

/-- Reader state opened over the duplicate-name header. -/
def dupReader : CSTableReader :=
  (openFile .v0_1_0 dupHdr { num_rows := 1 } (-1)).toOption.getD emptyReader

/-- C9 counterexample: in a file whose two columns both bear the name "x",
the last-declared one is `dupB` with decoder `rdrDupB`, yet
`getColumnReader "x"` returns `rdrDupA`, the first-declared column's
decoder — `emplace` never overwrites the existing binding, so the name
index keeps the first-declared column, contradicting the claim. -/
theorem c9_last_wins_counterexample :
    openFile .v0_1_0 dupHdr { num_rows := 1 } (-1) = .ok dupReader
  ∧ openColumnsV1 dupHdr.columns = .ok [rdrDupA, rdrDupB]
  ∧ dupHdr.columns.getLast? = some dupB
  ∧ (CSTableReader.getColumnReader dupReader "x").1 = .ok rdrDupA
  ∧ rdrDupA ≠ rdrDupB :=
  ⟨rfl, rfl, rfl, rfl, by decide⟩

/-- C9 (amended): when several column configs share one name, the name
index maps that name to the decoder of the FIRST-declared column bearing
it (for every name, the lookup equals the first matching pair of the
config/reader sequence), because the `HashMap` member is a
`std::unordered_map` whose `emplace` leaves an existing binding in
place. -/
theorem c9_name_index_first_declared (v : BinaryFormatVersion)
    (cols : List ColumnConfig) (readers : List ColumnReader)
    (n : Nat) (fd : Int) (st : CSTableReader) (nm : String)
    (hok : mkCSTableReader v cols readers n fd = .ok st) :
    hmFind st.column_readers_by_name_ nm =
      ((cols.zip readers).find?
        (fun q => q.1.column_name == nm)).map Prod.snd := by
  obtain ⟨hlen, hst⟩ := (mkCSTableReader_ok_iff _ _ _ _ _ _).mp hok
  subst hst
  rw [buildIndexes_find_name]
  rfl

/-- C9 witness: the amended statement evaluated on the duplicate-name
construction — the lookup of "x" returns the first matching pair's
decoder. -/
theorem c9_name_index_first_declared_witness :
    hmFind dupReader.column_readers_by_name_ "x" =
      (([dupA, dupB].zip [rdrDupA, rdrDupB]).find?
        (fun q => q.1.column_name == "x")).map Prod.snd :=
  c9_name_index_first_declared .v0_1_0 [dupA, dupB] [rdrDupA, rdrDupB]
    1 (-1) dupReader "x" (by rfl)

end CStable
